import Mathlib

set_option allowUnsafeReducibility true
attribute [semireducible] Rat.mul Rat.inv Rat.add Rat.sub Rat.ofScientific

/-! Shallow embedding of the staleness-aware digest and reminder engine of the
    `check` repository (app/models.py, app/bot_service.py, app/crud.py,
    config.py).  Timestamps are modelled as integers counting seconds since the
    UTC epoch.  Python float ratios are modelled as `WithTop ℚ`, with `⊤`
    standing for `float('inf')`; Python's `timedelta.days` is floor division of
    the duration in seconds by 86400. -/

namespace Check

/-- models.py `TaskStatus`. -/
inductive TaskStatus where
  | TODO
  | IN_PROGRESS
  | DONE
deriving DecidableEq

/-- A task row (models.py `Task`): title, status, optional completion instant. -/
structure Task where
  title : String
  status : TaskStatus
  completed_at : Option ℤ
deriving DecidableEq

/-- A project row (models.py `Project`) together with its `tasks` relationship. -/
structure Project where
  id : ℕ
  short_name : String
  periodicity_days : ℕ
  creator_id : ℕ
  updated_at : ℤ
  tasks : List Task
deriving DecidableEq

/-- models.py `Project.get_last_activity_date`: the maximal `completed_at` over
    the project's tasks that have one, when that is later than `updated_at`;
    otherwise `updated_at`. -/
def get_last_activity_date (updated_at : ℤ) (tasks : List Task) : ℤ :=
  match tasks.filterMap (fun t => t.completed_at) with
  | [] => updated_at
  | c :: cs =>
    let last_completed := cs.foldl max c
    if updated_at < last_completed then last_completed else updated_at

/-- models.py `Project.get_staleness_ratio`: whole days since last activity
    (Python `timedelta.days`, i.e. floor division of the duration by 86400
    seconds) divided by `periodicity_days`; `float('inf')` (here `⊤`) when
    `periodicity_days = 0`. -/
def get_staleness_ratio (periodicity_days : ℕ) (last_activity now : ℤ) : WithTop ℚ :=
  let days_since_activity : ℤ := (now - last_activity).fdiv 86400
  if periodicity_days = 0 then ⊤
  else (((days_since_activity : ℚ) / (periodicity_days : ℚ) : ℚ) : WithTop ℚ)

/-- One entry of the digest's completed list (bot_service.py lines 63-67). -/
structure CompletedEntry where
  project : Project
  tasks : List Task
deriving DecidableEq

/-- One entry of the digest's pending list (bot_service.py lines 70-74). -/
structure PendingEntry where
  project : Project
  pending_count : ℕ
deriving DecidableEq

/-- One entry of the digest's stale list (bot_service.py lines 78-82). -/
structure StaleEntry where
  project : Project
  staleness_ratio : WithTop ℚ
deriving DecidableEq

/-- The dictionary returned by bot_service.py `get_daily_summary` on success. -/
structure Digest where
  total_projects : ℕ
  completed_today : List CompletedEntry
  projects_with_pending : List PendingEntry
  stale_projects : List StaleEntry
  summary_date : ℤ
deriving DecidableEq

instance {ε α : Type} [DecidableEq ε] [DecidableEq α] : DecidableEq (Except ε α) := fun x y =>
  match x, y with
  | Except.ok a, Except.ok b =>
    match decEq a b with
    | isTrue h => isTrue (by rw [h])
    | isFalse h => isFalse (fun hh => by cases hh; exact h rfl)
  | Except.error a, Except.error b =>
    match decEq a b with
    | isTrue h => isTrue (by rw [h])
    | isFalse h => isFalse (fun hh => by cases hh; exact h rfl)
  | Except.ok _, Except.error _ => isFalse (fun hh => by cases hh)
  | Except.error _, Except.ok _ => isFalse (fun hh => by cases hh)

/-- The database state read by the service: user rows (by id) and project rows
    with their eagerly loaded tasks. -/
structure Database where
  users : List ℕ
  projects : List Project
deriving DecidableEq

/-- bot_service.py lines 54-58: tasks with status DONE, a completion time, and
    completion (naive values assumed UTC) not before UTC midnight of today. -/
def completedTodayTasks (today_start : ℤ) (tasks : List Task) : List Task :=
  tasks.filter fun t =>
    decide (t.status = TaskStatus.DONE) &&
      match t.completed_at with
      | some c => decide (today_start ≤ c)
      | none => false

/-- The ordering used at bot_service.py line 85,
    `stale_projects.sort(key=lambda x: x["staleness_ratio"], reverse=True)`:
    descending by ratio.  Python's sort is stable; it is modelled by the stable
    `List.insertionSort` over this relation. -/
def staleDesc (a b : StaleEntry) : Prop := b.staleness_ratio ≤ a.staleness_ratio

instance : DecidableRel staleDesc :=
  fun a b => inferInstanceAs (Decidable (b.staleness_ratio ≤ a.staleness_ratio))

instance : IsTotal StaleEntry staleDesc :=
  ⟨fun a b => le_total b.staleness_ratio a.staleness_ratio⟩

instance : IsTrans StaleEntry staleDesc :=
  ⟨fun _ _ _ h1 h2 => le_trans h2 h1⟩

/-- bot_service.py lines 76-82: the stale entry built for each project whose
    staleness ratio is at least 0.8, in project order. -/
def staleEntries (projects : List Project) (now : ℤ) : List StaleEntry :=
  projects.filterMap fun p =>
    let staleness := get_staleness_ratio p.periodicity_days
      (get_last_activity_date p.updated_at p.tasks) now
    if ((0.8 : ℚ) : WithTop ℚ) ≤ staleness then some ⟨p, staleness⟩ else none

/-- bot_service.py `get_daily_summary`, with the database and the current UTC
    instant `now` passed explicitly (the source reads them from the session and
    the clock).  `today_start` is `now` truncated to UTC midnight. -/
def get_daily_summary (dbase : Database) (user_id : ℕ) (now : ℤ) : Except String Digest :=
  if user_id ∈ dbase.users then
    let today_start : ℤ := 86400 * now.fdiv 86400
    let projects := dbase.projects.filter fun p => decide (p.creator_id = user_id)
    if projects.isEmpty then
      Except.ok ⟨0, [], [], [], now⟩
    else
      let completed_today := projects.filterMap fun p =>
        let cts := completedTodayTasks today_start p.tasks
        if cts.isEmpty then none else some ⟨p, cts⟩
      let projects_with_pending := projects.filterMap fun p =>
        let pending_tasks_count : ℕ :=
          (p.tasks.filter fun t => !decide (t.status = TaskStatus.DONE)).length
        if 0 < pending_tasks_count then some ⟨p, pending_tasks_count⟩ else none
      let stale_projects := List.insertionSort staleDesc (staleEntries projects now)
      Except.ok ⟨projects.length, completed_today, projects_with_pending,
        stale_projects, now⟩
  else
    Except.error "User not found"

/-- bot_service.py `get_daily_summary` as a database-state transformer: the
    source issues only read queries (no `session.add`/`commit`), so the state
    it hands back is the state it was given. -/
def get_daily_summary_st (dbase : Database) (user_id : ℕ) (now : ℤ) :
    Except String Digest × Database :=
  (get_daily_summary dbase user_id now, dbase)

/-- bot_service.py lines 120-124: the lines rendered for one completed item —
    a header, at most five task titles, and a `... и ещё N` suffix line when
    more than five tasks were completed. -/
def completedItemLines (item : CompletedEntry) : List String :=
  ("\n*" ++ item.project.short_name ++ "* (" ++ toString item.tasks.length ++ " задач)")
    :: ((item.tasks.take 5).map fun t => "  • " ++ t.title)
    ++ (if 5 < item.tasks.length then
          ["  • ... и ещё " ++ toString (item.tasks.length - 5)]
        else [])

/-- bot_service.py lines 115-127: the completed-today section. -/
def completedSection (completed_today : List CompletedEntry) : List String :=
  if completed_today.isEmpty then ["Сегодня задачи не выполнялись\n"]
  else "✅ *Выполнено сегодня:*" :: (completed_today.map completedItemLines).flatten ++ [""]

/-- bot_service.py lines 130-137: the pending section (absent when empty). -/
def pendingSection (projects_with_pending : List PendingEntry) : List String :=
  if projects_with_pending.isEmpty then []
  else "📝 *Проекты с незавершёнными задачами:*"
    :: (projects_with_pending.map fun item =>
        "  • *" ++ item.project.short_name ++ "*: " ++ toString item.pending_count ++ " задач")
    ++ [""]

/-- bot_service.py lines 147-155: severity emoji from the staleness ratio. -/
def staleEmoji (staleness : WithTop ℚ) : String :=
  if ((2 : ℚ) : WithTop ℚ) ≤ staleness then "🔴"
  else if ((1.5 : ℚ) : WithTop ℚ) ≤ staleness then "🟠"
  else if ((1 : ℚ) : WithTop ℚ) ≤ staleness then "🟡"
  else "🟢"

/-- bot_service.py lines 157-162: the line rendered for one stale project. -/
def staleLine (now : ℤ) (item : StaleEntry) : String :=
  let last_activity := get_last_activity_date item.project.updated_at item.project.tasks
  let days_ago := (now - last_activity).fdiv 86400
  "  " ++ staleEmoji item.staleness_ratio ++ " *" ++ item.project.short_name
    ++ "* (последняя активность: " ++ toString days_ago ++ " дн. назад)"

/-- bot_service.py lines 140-163: the attention section, showing at most five
    stale projects in total (absent when empty). -/
def staleSection (now : ℤ) (stale_projects : List StaleEntry) : List String :=
  if stale_projects.isEmpty then []
  else "⚠️ *Требуют внимания:*" :: ((stale_projects.take 5).map (staleLine now)) ++ [""]

/-- bot_service.py lines 165-173: the closing statistics block. -/
def statsSection (d : Digest) : List String :=
  let total_completed := (d.completed_today.map fun item => item.tasks.length).sum
  let total_pending := (d.projects_with_pending.map fun item => item.pending_count).sum
  ["📈 *Статистика:*",
   "  • Проектов: " ++ toString d.total_projects,
   "  • Выполнено сегодня: " ++ toString total_completed,
   "  • Осталось задач: " ++ toString total_pending]

/-- bot_service.py `format_summary_message`, with the current UTC instant `now`
    passed explicitly (the source reads the clock when rendering stale lines). -/
def format_summary_message (summary : Except String Digest) (now : ℤ) : String :=
  match summary with
  | Except.error e => "❌ " ++ e
  | Except.ok d =>
    String.intercalate "\n"
      (("📊 *Итоги дня*\n" :: completedSection d.completed_today)
        ++ pendingSection d.projects_with_pending
        ++ staleSection now d.stale_projects
        ++ statsSection d)

/-- config.py line 26: default value of `Config.DEFAULT_BOT_REMINDER_TIME`. -/
def DEFAULT_BOT_REMINDER_TIME : String := "20:00"

/-- models.py `UserSettings` (reminder-relevant columns). -/
structure UserSettings where
  reminders_enabled : Bool
  reminder_time : String
  timezone : String
deriving DecidableEq

/-- models.py lines 45-47: the column defaults of `UserSettings`. -/
def default_user_settings : UserSettings :=
  { reminders_enabled := true, reminder_time := "20:00", timezone := "UTC" }

/-- Python's `str.split(':')` on the character list: the `:`-separated pieces,
    with `[[]]` for the empty string. -/
def splitOnColon (l : List Char) : List (List Char) :=
  match l with
  | [] => [[]]
  | c :: cs =>
    if c = ':' then [] :: splitOnColon cs
    else
      match splitOnColon cs with
      | [] => [[c]]
      | piece :: pieces => (c :: piece) :: pieces

/-- Decimal value of a nonempty digit string, `none` on empty input or any
    non-digit character. -/
def parseDigits (l : List Char) : Option ℕ :=
  match l with
  | [] => none
  | _ =>
    l.foldl
      (fun acc c => acc.bind fun n =>
        if c.isDigit then some (n * 10 + (c.toNat - 48)) else none)
      (some 0)

/-- Python's `int(str)` on a stripped literal: an optional sign followed by
    digits; `none` models the `ValueError` it raises otherwise. -/
def parseIntPy (l : List Char) : Option ℤ :=
  match l with
  | '-' :: rest => (parseDigits rest).map fun n => -(n : ℤ)
  | '+' :: rest => (parseDigits rest).map fun n => (n : ℤ)
  | _ => (parseDigits l).map fun n => (n : ℤ)

/-- bot_service.py lines 254-255, `map(int, time_string.split(':'))` unpacked
    into two values: succeeds only on exactly two `:`-separated integer
    pieces; `none` models the `ValueError` caught at line 256. -/
def parseHM (s : String) : Option (ℤ × ℤ) :=
  match (splitOnColon s.data).map parseIntPy with
  | [some h, some m] => some (h, m)
  | _ => none

/-- pytz's IANA timezone database, modelled as UTC offsets in seconds for the
    fixed-offset zones the claims exercise (Europe/Moscow is UTC+3 with no
    DST); `none` models `pytz.exceptions.UnknownTimeZoneError`. -/
def pytz_utc_offset (tz : String) : Option ℤ :=
  if tz = "UTC" then some 0
  else if tz = "Europe/Moscow" then some (3 * 3600)
  else none

/-- bot_service.py lines 260-263: resolve `settings.timezone or "UTC"`, falling
    back to UTC on an unknown zone name. -/
def tzOffset (tz : String) : ℤ :=
  (pytz_utc_offset (if tz = "" then "UTC" else tz)).getD 0

/-- bot_service.py lines 252-257: parse `settings.reminder_time or
    Config.DEFAULT_BOT_REMINDER_TIME`, with `(20, 0)` on parse failure. -/
def parsedTarget (reminder_time : String) : ℤ × ℤ :=
  (parseHM (if reminder_time = "" then DEFAULT_BOT_REMINDER_TIME else reminder_time)).getD (20, 0)

/-- Hour of the civil time of instant `t` (seconds since the UTC epoch, zone
    offset already added), as Python's `datetime.hour`. -/
def localHour (t : ℤ) : ℤ := (t.fdiv 3600).emod 24

/-- Minute of the civil time of instant `t`, as Python's `datetime.minute`. -/
def localMinute (t : ℤ) : ℤ := (t.fdiv 60).emod 60

/-- bot_service.py lines 248-269, loop body of `get_users_for_reminder` for one
    user: skip when reminders are disabled, else fire iff the user's local
    (hour, minute) equals the parsed target. -/
def remind_due (settings : UserSettings) (utc_now : ℤ) : Bool :=
  if settings.reminders_enabled = false then false
  else
    let target := parsedTarget settings.reminder_time
    let user_now := utc_now + tzOffset settings.timezone
    decide (localHour user_now = target.1 ∧ localMinute user_now = target.2)

/-- bot_service.py `get_users_for_reminder` over the outer-joined
    (user, settings) rows, returning the user ids to notify; a user with no
    settings row gets the freshly created defaults (lines 244-246). -/
def get_users_for_reminder (users_with_settings : List (ℕ × Option UserSettings))
    (utc_now : ℤ) : List ℕ :=
  users_with_settings.filterMap fun p =>
    if remind_due (p.2.getD default_user_settings) utc_now then some p.1 else none

/-- Modelled from the spec: `get_or_create_user_settings` is imported from
    `app.crud` by bot_service.py and bot.py, but its definition is not among
    the provided sources.  Per spec §3/§6 (SettingsStore `getOrCreate`): return
    the owner's existing settings record, otherwise create one carrying the
    column defaults of models.py `UserSettings` lines 45-47.  The settings
    store is the list of (user_id, settings) rows; the possibly extended store
    is returned alongside the record. -/
def get_or_create_user_settings (store : List (ℕ × UserSettings)) (user_id : ℕ) :
    UserSettings × List (ℕ × UserSettings) :=
  match store.find? (fun r => decide (r.1 = user_id)) with
  | some r => (r.2, store)
  | none => (default_user_settings, store ++ [(user_id, default_user_settings)])

/-! Theorems. -/

theorem foldl_max_comm (l : List ℤ) (a b : ℤ) :
    l.foldl max (max a b) = max a (l.foldl max b) := by
  induction l generalizing b with
  | nil => rfl
  | cons c cs ih =>
    simp only [List.foldl_cons]
    rw [max_assoc, ih]

/-- C1: for every project with `periodicity_days > 0` and every `now` not
    earlier than the last-activity timestamp, `get_staleness_ratio` returns the
    whole-day truncation of the duration `now - last_activity` divided by
    `periodicity_days`, monotonically non-decreasing in the elapsed time; for
    `periodicity_days = 0` it returns positive infinity (`⊤`) rather than a
    division error. -/
theorem get_staleness_ratio_spec (p : ℕ) (la now now' : ℤ) :
    (0 < p → la ≤ now →
      get_staleness_ratio p la now
        = (((((now - la).toNat / 86400 : ℕ) : ℚ) / (p : ℚ) : ℚ) : WithTop ℚ)
      ∧ (now ≤ now' →
          get_staleness_ratio p la now ≤ get_staleness_ratio p la now'))
    ∧ (p = 0 → get_staleness_ratio p la now = ⊤) := by
  constructor
  · intro hp hla
    have hp0 : p ≠ 0 := hp.ne'
    have hpq : (0 : ℚ) < (p : ℚ) := by exact_mod_cast hp
    constructor
    · simp only [get_staleness_ratio]
      rw [if_neg hp0]
      have hd : (now - la).fdiv 86400 = (((now - la).toNat / 86400 : ℕ) : ℤ) := by
        rw [Int.fdiv_eq_ediv _ (by norm_num)]
        omega
      rw [hd, Int.cast_natCast]
    · intro hnow
      simp only [get_staleness_ratio]
      rw [if_neg hp0, if_neg hp0, WithTop.coe_le_coe,
        div_le_div_iff_of_pos_right hpq]
      have : (now - la).fdiv 86400 ≤ (now' - la).fdiv 86400 := by
        rw [Int.fdiv_eq_ediv _ (by norm_num), Int.fdiv_eq_ediv _ (by norm_num)]
        omega
      exact_mod_cast this
  · intro h0
    simp only [get_staleness_ratio]
    rw [if_pos h0]

theorem get_staleness_ratio_spec_witness :
    (0 < 7 ∧ (0 : ℤ) ≤ 864000 ∧ (864000 : ℤ) ≤ 950400) ∧
    get_staleness_ratio 7 0 864000
      = ((((((864000 : ℤ) - 0).toNat / 86400 : ℕ) : ℚ) / (7 : ℚ) : ℚ) : WithTop ℚ) ∧
    get_staleness_ratio 7 0 864000 ≤ get_staleness_ratio 7 0 950400 ∧
    get_staleness_ratio 0 5 5 = ⊤ :=
  ⟨⟨by decide, by decide, by decide⟩,
    ((get_staleness_ratio_spec 7 0 864000 950400).1 (by decide) (by decide)).1,
    ((get_staleness_ratio_spec 7 0 864000 950400).1 (by decide) (by decide)).2 (by decide),
    (get_staleness_ratio_spec 0 5 5 0).2 rfl⟩

/-- C2: `get_last_activity_date` returns the later of the project's
    `updated_at` and the maximum `completed_at` among the project's tasks that
    have a completion time (the fold of `max` over them), so the returned
    timestamp is always at least `updated_at`. -/
theorem get_last_activity_date_spec (updated_at : ℤ) (tasks : List Task) :
    get_last_activity_date updated_at tasks
      = (tasks.filterMap (fun t => t.completed_at)).foldl max updated_at ∧
    updated_at ≤ get_last_activity_date updated_at tasks := by
  unfold get_last_activity_date
  cases h : tasks.filterMap (fun t => t.completed_at) with
  | nil => exact ⟨rfl, le_refl _⟩
  | cons c cs =>
    simp only [List.foldl_cons]
    have hfold : cs.foldl max (max updated_at c) = max updated_at (cs.foldl max c) :=
      foldl_max_comm cs updated_at c
    rcases le_or_lt (cs.foldl max c) updated_at with hle | hlt
    · rw [if_neg (not_lt.mpr hle)]
      exact ⟨by rw [hfold, max_eq_left hle], le_refl _⟩
    · rw [if_pos hlt]
      exact ⟨by rw [hfold, max_eq_right hlt.le], hlt.le⟩

/-- C10: for a project with `periodicity_days > 0` whose last activity lies
    strictly in the future of `now`, `get_staleness_ratio` returns a strictly
    negative value, at most `-1 / periodicity_days`: the ratio is not clamped
    to zero for future timestamps. -/
theorem get_staleness_ratio_future_negative (p : ℕ) (la now : ℤ)
    (hp : 0 < p) (hf : now < la) :
    get_staleness_ratio p la now ≤ (((-1 : ℚ) / (p : ℚ) : ℚ) : WithTop ℚ) ∧
    get_staleness_ratio p la now < 0 := by
  have hp0 : p ≠ 0 := hp.ne'
  have hpq : (0 : ℚ) < (p : ℚ) := by exact_mod_cast hp
  have hd : (now - la).fdiv 86400 ≤ -1 := by
    rw [Int.fdiv_eq_ediv _ (by norm_num)]
    omega
  have hdq : ((now - la).fdiv 86400 : ℚ) ≤ -1 := by exact_mod_cast hd
  simp only [get_staleness_ratio]
  rw [if_neg hp0]
  constructor
  · rw [WithTop.coe_le_coe, div_le_div_iff_of_pos_right hpq]
    exact hdq
  · rw [← WithTop.coe_zero, WithTop.coe_lt_coe]
    exact div_neg_of_neg_of_pos (lt_of_le_of_lt hdq (by norm_num)) hpq

theorem get_staleness_ratio_future_negative_witness :
    (0 < 7 ∧ (0 : ℤ) < 1) ∧
    get_staleness_ratio 7 1 0 ≤ (((-1 : ℚ) / (7 : ℚ) : ℚ) : WithTop ℚ) ∧
    get_staleness_ratio 7 1 0 < 0 :=
  ⟨⟨by decide, by decide⟩,
    (get_staleness_ratio_future_negative 7 1 0 (by decide) (by decide)).1,
    (get_staleness_ratio_future_negative 7 1 0 (by decide) (by decide)).2⟩

/-- C3: `get_daily_summary` returns the "User not found" error result if and
    only if no user with that id exists (it never substitutes a default
    owner); for an existing user with zero projects it returns the well-formed
    empty digest with `total_projects = 0` and empty completed, pending and
    attention sections, not an error. -/
theorem get_daily_summary_owner_spec (dbase : Database) (user_id : ℕ) (now : ℤ) :
    (get_daily_summary dbase user_id now = Except.error "User not found"
      ↔ user_id ∉ dbase.users)
    ∧ (user_id ∈ dbase.users →
        (dbase.projects.filter fun p => decide (p.creator_id = user_id)) = [] →
        get_daily_summary dbase user_id now = Except.ok ⟨0, [], [], [], now⟩) := by
  constructor
  · constructor
    · intro h hmem
      simp only [get_daily_summary, if_pos hmem] at h
      split at h <;> simp at h
    · intro hmem
      simp only [get_daily_summary, if_neg hmem]
  · intro hmem hempty
    simp only [get_daily_summary, if_pos hmem, hempty]
    simp

theorem get_daily_summary_owner_spec_witness :
    (1 ∈ (Database.mk [1] []).users
      ∧ ((Database.mk [1] []).projects.filter fun p => decide (p.creator_id = 1)) = [])
    ∧ get_daily_summary (Database.mk [1] []) 1 0 = Except.ok ⟨0, [], [], [], 0⟩
    ∧ get_daily_summary (Database.mk [1] []) 2 0 = Except.error "User not found" :=
  ⟨⟨by decide, rfl⟩,
    (get_daily_summary_owner_spec (Database.mk [1] []) 1 0).2 (by decide) rfl,
    (get_daily_summary_owner_spec (Database.mk [1] []) 2 0).1.mpr (by decide)⟩

/-- C8: digest generation is deterministic and read-only — as a state
    transformer over the database, `get_daily_summary_st` hands back the
    database unchanged, and a second invocation on that state with the same
    `now` yields the identical digest. -/
theorem get_daily_summary_deterministic_readonly (dbase : Database) (user_id : ℕ) (now : ℤ) :
    (get_daily_summary_st dbase user_id now).1
      = (get_daily_summary_st (get_daily_summary_st dbase user_id now).2 user_id now).1
    ∧ (get_daily_summary_st (get_daily_summary_st dbase user_id now).2 user_id now).2
      = dbase :=
  ⟨rfl, rfl⟩

/-- C9: settings are created lazily by a get-or-create operation — after any
    first touch the owner has a settings record in the store, and when no
    record existed the returned record carries the defaults
    `reminders_enabled = true`, `reminder_time = "20:00"`, `timezone = "UTC"`. -/
theorem get_or_create_user_settings_spec (store : List (ℕ × UserSettings)) (user_id : ℕ) :
    (user_id, (get_or_create_user_settings store user_id).1)
        ∈ (get_or_create_user_settings store user_id).2
    ∧ (store.find? (fun r => decide (r.1 = user_id)) = none →
        (get_or_create_user_settings store user_id).1
          = { reminders_enabled := true, reminder_time := "20:00", timezone := "UTC" }) := by
  constructor
  · unfold get_or_create_user_settings
    cases hf : store.find? (fun r => decide (r.1 = user_id)) with
    | none => simp
    | some r =>
      have hmem : r ∈ store := List.mem_of_find?_eq_some hf
      have hp := List.find?_some hf
      have h1 : r.1 = user_id := by simpa using hp
      obtain ⟨a, b⟩ := r
      simp only at h1
      subst h1
      simpa using hmem
  · intro hnone
    unfold get_or_create_user_settings
    rw [hnone]
    rfl

theorem get_or_create_user_settings_spec_witness :
    (([] : List (ℕ × UserSettings)).find? (fun r => decide (r.1 = 7)) = none)
    ∧ (7, (get_or_create_user_settings [] 7).1) ∈ (get_or_create_user_settings [] 7).2
    ∧ (get_or_create_user_settings [] 7).1
        = { reminders_enabled := true, reminder_time := "20:00", timezone := "UTC" } :=
  ⟨rfl, (get_or_create_user_settings_spec [] 7).1,
    (get_or_create_user_settings_spec [] 7).2 rfl⟩

/-- C5: for a user row carrying settings with reminders enabled,
    `get_users_for_reminder` includes that user in the tick's delivery set if
    and only if the tick's UTC instant converted to the user's configured
    timezone has local hour and minute exactly equal to the parsed target
    reminder time; a user whose reminders are disabled is never included. -/
theorem get_users_for_reminder_spec
    (users : List (ℕ × Option UserSettings)) (uid : ℕ) (s : UserSettings) (utc_now : ℤ)
    (hnd : (users.map Prod.fst).Nodup) (hmem : (uid, some s) ∈ users) :
    (s.reminders_enabled = true →
      (uid ∈ get_users_for_reminder users utc_now ↔
        (localHour (utc_now + tzOffset s.timezone) = (parsedTarget s.reminder_time).1
          ∧ localMinute (utc_now + tzOffset s.timezone) = (parsedTarget s.reminder_time).2)))
    ∧ (s.reminders_enabled = false → uid ∉ get_users_for_reminder users utc_now) := by
  have hkey : ∀ p ∈ users, p.1 = uid → p = (uid, some s) := by
    intro p hp h1
    exact List.inj_on_of_nodup_map hnd hp hmem (by simpa using h1)
  have hiff : uid ∈ get_users_for_reminder users utc_now ↔ remind_due s utc_now = true := by
    unfold get_users_for_reminder
    rw [List.mem_filterMap]
    constructor
    · rintro ⟨p, hp, hsome⟩
      by_cases h : remind_due (p.2.getD default_user_settings) utc_now
      · rw [if_pos h] at hsome
        have hps := hkey p hp (Option.some.inj hsome)
        rw [hps] at h
        simpa using h
      · rw [if_neg h] at hsome
        exact absurd hsome (by simp)
    · intro h
      exact ⟨(uid, some s), hmem, by simp [h]⟩
  constructor
  · intro hen
    rw [hiff]
    unfold remind_due
    rw [if_neg (by simp [hen])]
    simp
  · intro hdis
    rw [hiff]
    unfold remind_due
    rw [if_pos hdis]
    simp

theorem get_users_for_reminder_spec_witness :
    ((([(1, some (UserSettings.mk true "21:30" "Europe/Moscow"))]
        : List (ℕ × Option UserSettings)).map Prod.fst).Nodup
      ∧ (1, some (UserSettings.mk true "21:30" "Europe/Moscow"))
          ∈ ([(1, some (UserSettings.mk true "21:30" "Europe/Moscow"))]
            : List (ℕ × Option UserSettings))
      ∧ (UserSettings.mk true "21:30" "Europe/Moscow").reminders_enabled = true)
    ∧ 1 ∈ get_users_for_reminder
        [(1, some (UserSettings.mk true "21:30" "Europe/Moscow"))] 66600
    ∧ 1 ∉ get_users_for_reminder
        [(1, some (UserSettings.mk true "21:30" "Europe/Moscow"))] 66540
    ∧ 1 ∉ get_users_for_reminder
        [(1, some (UserSettings.mk true "21:30" "Europe/Moscow"))] 66660 :=
  ⟨⟨by decide, by decide, rfl⟩,
    ((get_users_for_reminder_spec
        [(1, some (UserSettings.mk true "21:30" "Europe/Moscow"))]
        1 (UserSettings.mk true "21:30" "Europe/Moscow") 66600
        (by decide) (by decide)).1 rfl).mpr (by decide),
    fun h => absurd
      (((get_users_for_reminder_spec
          [(1, some (UserSettings.mk true "21:30" "Europe/Moscow"))]
          1 (UserSettings.mk true "21:30" "Europe/Moscow") 66540
          (by decide) (by decide)).1 rfl).mp h) (by decide),
    fun h => absurd
      (((get_users_for_reminder_spec
          [(1, some (UserSettings.mk true "21:30" "Europe/Moscow"))]
          1 (UserSettings.mk true "21:30" "Europe/Moscow") 66660
          (by decide) (by decide)).1 rfl).mp h) (by decide)⟩

/-- C6: when the stored reminder_time string fails to parse as hour and minute,
    the scheduler neither fails nor drops the owner: it evaluates the owner
    exactly as if reminder_time were "20:00", both in the per-owner decision
    and in the computed delivery set. -/
theorem reminder_time_fallback_spec (s : UserSettings) (utc_now : ℤ)
    (h : parseHM s.reminder_time = none) :
    remind_due s utc_now = remind_due { s with reminder_time := "20:00" } utc_now
    ∧ ∀ (uid : ℕ) (rest : List (ℕ × Option UserSettings)),
        get_users_for_reminder ((uid, some s) :: rest) utc_now
          = get_users_for_reminder
              ((uid, some { s with reminder_time := "20:00" }) :: rest) utc_now := by
  have ht : parsedTarget s.reminder_time = (20, 0) := by
    unfold parsedTarget
    by_cases he : s.reminder_time = ""
    · rw [if_pos he]
      decide
    · rw [if_neg he, h]
      rfl
  have h2 : parsedTarget "20:00" = (20, 0) := by decide
  have hdue : remind_due s utc_now = remind_due { s with reminder_time := "20:00" } utc_now := by
    simp only [remind_due, ht, h2]
  refine ⟨hdue, fun uid rest => ?_⟩
  simp only [get_users_for_reminder, List.filterMap_cons, Option.getD_some, hdue]

theorem reminder_time_fallback_spec_witness :
    parseHM (UserSettings.mk true "nonsense" "UTC").reminder_time = none
    ∧ remind_due (UserSettings.mk true "nonsense" "UTC") 0
        = remind_due (UserSettings.mk true "20:00" "UTC") 0
    ∧ get_users_for_reminder [(1, some (UserSettings.mk true "nonsense" "UTC"))] 0
        = get_users_for_reminder [(1, some (UserSettings.mk true "20:00" "UTC"))] 0 :=
  ⟨by decide,
    (reminder_time_fallback_spec (UserSettings.mk true "nonsense" "UTC") 0 (by decide)).1,
    (reminder_time_fallback_spec (UserSettings.mk true "nonsense" "UTC") 0 (by decide)).2 1 []⟩

/-- C7: the rendered completed-task listing for a project shows at most five
    task titles, and exactly when the project has more than five completed
    tasks it ends with one `+N more`-style line with N the count beyond five;
    with at most five tasks, no suffix line is rendered.  The attention-section
    listing shows at most five projects in total. -/
theorem format_truncation_spec (item : CompletedEntry) (now : ℤ)
    (stale : List StaleEntry) (hs : stale ≠ []) :
    (completedItemLines item).length
      = 1 + min item.tasks.length 5 + (if 5 < item.tasks.length then 1 else 0)
    ∧ (5 < item.tasks.length →
        (completedItemLines item).getLast?
          = some ("  • ... и ещё " ++ toString (item.tasks.length - 5)))
    ∧ (item.tasks.length ≤ 5 →
        completedItemLines item
          = ("\n*" ++ item.project.short_name ++ "* ("
              ++ toString item.tasks.length ++ " задач)")
            :: (item.tasks.map fun t => "  • " ++ t.title))
    ∧ (staleSection now stale).length = 1 + min stale.length 5 + 1 := by
  refine ⟨?_, ?_, ?_, ?_⟩
  · by_cases h5 : 5 < item.tasks.length <;>
      simp [completedItemLines, h5, List.length_take] <;> omega
  · intro h5
    simp only [completedItemLines, if_pos h5, ← List.cons_append]
    rw [List.getLast?_concat]
  · intro h5
    simp [completedItemLines, Nat.not_lt.mpr h5, List.take_of_length_le h5]
  · have : stale.isEmpty = false := by
      cases stale with
      | nil => exact absurd rfl hs
      | cons a l => rfl
    simp [staleSection, this, List.length_take]
    omega

theorem format_truncation_spec_witness :
    (5 < (CompletedEntry.mk (Project.mk 1 "P" 7 1 0 [])
        [Task.mk "a" TaskStatus.DONE (some 0), Task.mk "b" TaskStatus.DONE (some 0),
         Task.mk "c" TaskStatus.DONE (some 0), Task.mk "d" TaskStatus.DONE (some 0),
         Task.mk "e" TaskStatus.DONE (some 0), Task.mk "f" TaskStatus.DONE (some 0),
         Task.mk "g" TaskStatus.DONE (some 0)]).tasks.length
      ∧ List.replicate 6 (StaleEntry.mk (Project.mk 1 "P" 7 1 0 []) ⊤) ≠ [])
    ∧ (completedItemLines (CompletedEntry.mk (Project.mk 1 "P" 7 1 0 [])
        [Task.mk "a" TaskStatus.DONE (some 0), Task.mk "b" TaskStatus.DONE (some 0),
         Task.mk "c" TaskStatus.DONE (some 0), Task.mk "d" TaskStatus.DONE (some 0),
         Task.mk "e" TaskStatus.DONE (some 0), Task.mk "f" TaskStatus.DONE (some 0),
         Task.mk "g" TaskStatus.DONE (some 0)])).length = 7
    ∧ (completedItemLines (CompletedEntry.mk (Project.mk 1 "P" 7 1 0 [])
        [Task.mk "a" TaskStatus.DONE (some 0), Task.mk "b" TaskStatus.DONE (some 0),
         Task.mk "c" TaskStatus.DONE (some 0), Task.mk "d" TaskStatus.DONE (some 0),
         Task.mk "e" TaskStatus.DONE (some 0), Task.mk "f" TaskStatus.DONE (some 0),
         Task.mk "g" TaskStatus.DONE (some 0)])).getLast? = some "  • ... и ещё 2"
    ∧ (staleSection 0 (List.replicate 6 (StaleEntry.mk (Project.mk 1 "P" 7 1 0 []) ⊤))).length
        = 7 :=
  ⟨⟨by decide, by decide⟩,
    ((format_truncation_spec (CompletedEntry.mk (Project.mk 1 "P" 7 1 0 [])
        [Task.mk "a" TaskStatus.DONE (some 0), Task.mk "b" TaskStatus.DONE (some 0),
         Task.mk "c" TaskStatus.DONE (some 0), Task.mk "d" TaskStatus.DONE (some 0),
         Task.mk "e" TaskStatus.DONE (some 0), Task.mk "f" TaskStatus.DONE (some 0),
         Task.mk "g" TaskStatus.DONE (some 0)]) 0
        (List.replicate 6 (StaleEntry.mk (Project.mk 1 "P" 7 1 0 []) ⊤))
        (by decide)).1).trans (by decide),
    ((format_truncation_spec (CompletedEntry.mk (Project.mk 1 "P" 7 1 0 [])
        [Task.mk "a" TaskStatus.DONE (some 0), Task.mk "b" TaskStatus.DONE (some 0),
         Task.mk "c" TaskStatus.DONE (some 0), Task.mk "d" TaskStatus.DONE (some 0),
         Task.mk "e" TaskStatus.DONE (some 0), Task.mk "f" TaskStatus.DONE (some 0),
         Task.mk "g" TaskStatus.DONE (some 0)]) 0
        (List.replicate 6 (StaleEntry.mk (Project.mk 1 "P" 7 1 0 []) ⊤))
        (by decide)).2.1 (by decide)).trans (by decide),
    ((format_truncation_spec (CompletedEntry.mk (Project.mk 1 "P" 7 1 0 [])
        [Task.mk "a" TaskStatus.DONE (some 0), Task.mk "b" TaskStatus.DONE (some 0),
         Task.mk "c" TaskStatus.DONE (some 0), Task.mk "d" TaskStatus.DONE (some 0),
         Task.mk "e" TaskStatus.DONE (some 0), Task.mk "f" TaskStatus.DONE (some 0),
         Task.mk "g" TaskStatus.DONE (some 0)]) 0
        (List.replicate 6 (StaleEntry.mk (Project.mk 1 "P" 7 1 0 []) ⊤))
        (by decide)).2.2.2).trans (by decide)⟩

theorem stale_projects_of_ok {dbase : Database} {user_id : ℕ} {now : ℤ} {d : Digest}
    (h : get_daily_summary dbase user_id now = Except.ok d) :
    d.stale_projects
      = List.insertionSort staleDesc
          (staleEntries (dbase.projects.filter fun p => decide (p.creator_id = user_id)) now) := by
  unfold get_daily_summary at h
  simp only [] at h
  split at h
  · split at h
    · rename_i hempty
      rw [List.isEmpty_iff.mp hempty]
      simp only [Except.ok.injEq] at h
      rw [← h]
      rfl
    · simp only [Except.ok.injEq] at h
      rw [← h]
  · exact absurd h (by simp)

theorem mem_staleEntries_ratio {projects : List Project} {now : ℤ} {e : StaleEntry}
    (he : e ∈ staleEntries projects now) :
    ((0.8 : ℚ) : WithTop ℚ) ≤ e.staleness_ratio := by
  unfold staleEntries at he
  rw [List.mem_filterMap] at he
  obtain ⟨p, _, hp⟩ := he
  simp only [] at hp
  split at hp
  · rename_i hcond
    cases hp
    exact hcond
  · exact absurd hp (by simp)

theorem filter_ratio_orderedInsert (q : WithTop ℚ) (a : StaleEntry) (l : List StaleEntry) :
    (List.orderedInsert staleDesc a l).filter (fun e => decide (e.staleness_ratio = q))
      = (a :: l).filter (fun e => decide (e.staleness_ratio = q)) := by
  induction l with
  | nil => rfl
  | cons b t ih =>
    by_cases hab : staleDesc a b
    · rw [List.orderedInsert, if_pos hab]
    · rw [List.orderedInsert, if_neg hab]
      have hne : b.staleness_ratio ≠ a.staleness_ratio := fun hEq => hab (le_of_eq hEq)
      simp only [List.filter_cons, ih]
      rcases eq_or_ne a.staleness_ratio q with hpa | hpa
      · have hpb : ¬ (b.staleness_ratio = q) := fun hb => hne (hb.trans hpa.symm)
        simp [hpa, hpb]
      · simp [hpa]

theorem filter_ratio_insertionSort (q : WithTop ℚ) (l : List StaleEntry) :
    (List.insertionSort staleDesc l).filter (fun e => decide (e.staleness_ratio = q))
      = l.filter (fun e => decide (e.staleness_ratio = q)) := by
  induction l with
  | nil => rfl
  | cons a t ih =>
    rw [List.insertionSort, filter_ratio_orderedInsert]
    simp only [List.filter_cons, ih]

/-- C4 (amended): in every digest produced by `get_daily_summary`, the
    attention section is a permutation of the stale entries computed in
    project-retrieval order (exactly the owner's projects with ratio ≥ 0.8),
    sorted in descending order of ratio with ties preserving the retrieval
    order — the sort is stable: for every ratio value, the entries carrying
    that ratio appear in exactly the order the projects were retrieved in, so
    ties are not re-ordered by project id; every listed entry has ratio ≥ 0.8,
    and whenever an entry has ratio positive infinity (`periodicity_days = 0`)
    the head of the section also has ratio positive infinity, so such a
    project sorts first. -/
theorem stale_section_sorted_spec (dbase : Database) (user_id : ℕ) (now : ℤ) (d : Digest)
    (h : get_daily_summary dbase user_id now = Except.ok d) :
    List.Perm d.stale_projects
        (staleEntries (dbase.projects.filter fun p => decide (p.creator_id = user_id)) now)
    ∧ d.stale_projects.Pairwise staleDesc
    ∧ (∀ e ∈ d.stale_projects, ((0.8 : ℚ) : WithTop ℚ) ≤ e.staleness_ratio)
    ∧ (∀ e ∈ d.stale_projects, e.staleness_ratio = ⊤ →
        ∃ hd, d.stale_projects.head? = some hd ∧ hd.staleness_ratio = ⊤)
    ∧ (∀ q : WithTop ℚ,
        d.stale_projects.filter (fun e => decide (e.staleness_ratio = q))
          = (staleEntries (dbase.projects.filter fun p => decide (p.creator_id = user_id))
              now).filter (fun e => decide (e.staleness_ratio = q))) := by
  have hst := stale_projects_of_ok h
  have hsorted : d.stale_projects.Pairwise staleDesc := by
    rw [hst]
    exact List.sorted_insertionSort staleDesc _
  refine ⟨?_, hsorted, ?_, ?_, ?_⟩
  · rw [hst]
    exact List.perm_insertionSort staleDesc _
  · intro e he
    rw [hst, List.mem_insertionSort] at he
    exact mem_staleEntries_ratio he
  swap
  · intro q
    rw [hst]
    exact filter_ratio_insertionSort q _
  · intro e he htop
    cases hcase : d.stale_projects with
    | nil =>
      rw [hcase] at he
      exact absurd he (List.not_mem_nil e)
    | cons a l =>
      refine ⟨a, rfl, ?_⟩
      rw [hcase] at he
      rcases List.mem_cons.mp he with rfl | hmem
      · exact htop
      · have hp : (a :: l).Pairwise staleDesc := hcase ▸ hsorted
        have hle : staleDesc a e := (List.pairwise_cons.mp hp).1 e hmem
        exact top_le_iff.mp (htop ▸ hle)

theorem stale_section_sorted_spec_witness :
    get_daily_summary
        (Database.mk [1] [Project.mk 1 "A" 7 1 0 [], Project.mk 2 "B" 0 1 0 []]) 1 864000
      = Except.ok (Digest.mk 2 [] []
          [StaleEntry.mk (Project.mk 2 "B" 0 1 0 []) ⊤,
           StaleEntry.mk (Project.mk 1 "A" 7 1 0 []) (((10 : ℚ) / (7 : ℚ) : ℚ) : WithTop ℚ)]
          864000)
    ∧ (Digest.mk 2 [] []
          [StaleEntry.mk (Project.mk 2 "B" 0 1 0 []) ⊤,
           StaleEntry.mk (Project.mk 1 "A" 7 1 0 []) (((10 : ℚ) / (7 : ℚ) : ℚ) : WithTop ℚ)]
          864000).stale_projects.Pairwise staleDesc
    ∧ (Digest.mk 2 [] []
          [StaleEntry.mk (Project.mk 2 "B" 0 1 0 []) ⊤,
           StaleEntry.mk (Project.mk 1 "A" 7 1 0 []) (((10 : ℚ) / (7 : ℚ) : ℚ) : WithTop ℚ)]
          864000).stale_projects.filter (fun e => decide (e.staleness_ratio = ⊤))
        = (staleEntries
            ((Database.mk [1] [Project.mk 1 "A" 7 1 0 [],
                Project.mk 2 "B" 0 1 0 []]).projects.filter fun p => decide (p.creator_id = 1))
            864000).filter (fun e => decide (e.staleness_ratio = ⊤)) :=
  ⟨by decide,
    (stale_section_sorted_spec
        (Database.mk [1] [Project.mk 1 "A" 7 1 0 [], Project.mk 2 "B" 0 1 0 []]) 1 864000
        (Digest.mk 2 [] []
          [StaleEntry.mk (Project.mk 2 "B" 0 1 0 []) ⊤,
           StaleEntry.mk (Project.mk 1 "A" 7 1 0 []) (((10 : ℚ) / (7 : ℚ) : ℚ) : WithTop ℚ)]
          864000)
        (by decide)).2.1,
    (stale_section_sorted_spec
        (Database.mk [1] [Project.mk 1 "A" 7 1 0 [], Project.mk 2 "B" 0 1 0 []]) 1 864000
        (Digest.mk 2 [] []
          [StaleEntry.mk (Project.mk 2 "B" 0 1 0 []) ⊤,
           StaleEntry.mk (Project.mk 1 "A" 7 1 0 []) (((10 : ℚ) / (7 : ℚ) : ℚ) : WithTop ℚ)]
          864000)
        (by decide)).2.2.2.2 ⊤⟩

/-- C4, counterexample to the tie-breaking clause of the claim as stated: for
    an owner whose projects are retrieved in the order id 2, id 3, id 1, all
    with `periodicity_days = 0` (so all three ratios are `⊤` and tie), the
    attention section lists the projects as 2, 3, 1 — the stable sort
    preserves retrieval order for ties.  That order is not ascending by
    project identifier, as the claim states (which would demand 1, 2, 3), and
    it is not descending either, so it can only come from the retrieval
    order. -/
theorem stale_tie_not_id_ascending :
    get_daily_summary
        (Database.mk [1] [Project.mk 2 "B" 0 1 0 [], Project.mk 3 "C" 0 1 0 [],
          Project.mk 1 "A" 0 1 0 []]) 1 0
      = Except.ok (Digest.mk 3 [] []
          [StaleEntry.mk (Project.mk 2 "B" 0 1 0 []) ⊤,
           StaleEntry.mk (Project.mk 3 "C" 0 1 0 []) ⊤,
           StaleEntry.mk (Project.mk 1 "A" 0 1 0 []) ⊤] 0)
    ∧ ([StaleEntry.mk (Project.mk 2 "B" 0 1 0 []) ⊤,
        StaleEntry.mk (Project.mk 3 "C" 0 1 0 []) ⊤,
        StaleEntry.mk (Project.mk 1 "A" 0 1 0 []) ⊤].map fun e => e.project.id) = [2, 3, 1]
    ∧ ¬ (([StaleEntry.mk (Project.mk 2 "B" 0 1 0 []) ⊤,
           StaleEntry.mk (Project.mk 3 "C" 0 1 0 []) ⊤,
           StaleEntry.mk (Project.mk 1 "A" 0 1 0 []) ⊤].map fun e => e.project.id).Pairwise
            (fun a b => a ≤ b))
    ∧ ¬ (([StaleEntry.mk (Project.mk 2 "B" 0 1 0 []) ⊤,
           StaleEntry.mk (Project.mk 3 "C" 0 1 0 []) ⊤,
           StaleEntry.mk (Project.mk 1 "A" 0 1 0 []) ⊤].map fun e => e.project.id).Pairwise
            (fun a b => b ≤ a)) := by
  refine ⟨by decide, by decide, ?_, ?_⟩
  · decide
  · decide

end Check
